import Mathlib

/-!
Verification of the import-export tracker's core ledger logic.

The source keeps purchases, payments and sales as pandas dataframes with a
fixed column set; each dataframe row becomes a Lean structure and each
dataframe becomes a `List` of those structures, in row order.  Monetary and
quantity columns are modelled as exact rationals (`ℚ`); Python's
`round(x, 2)` becomes `round2` below.  A column that may hold a non-numeric
or empty cell where the code applies `pd.to_numeric(..., errors="coerce")`
is modelled as `Option ℚ`, with `none` standing for the absent/non-numeric
case that coerces to `0`.  Dates that participate in comparisons are day
ordinals (`ℤ`); purely decorative date/text columns stay `String`.
-/

namespace ImportExport

/-- Python's `round(x, 2)`: round to 2 decimal places.  On exact decimal
inputs this is rounding the number of cents to the nearest integer. -/
def round2 (x : ℚ) : ℚ := (round (100 * x) : ℤ) / 100

/-- One row of the purchases table (columns `PURCHASE_COLS`). -/
structure Purchase where
  slNo : ℤ
  date : String
  supplier : String
  material : String
  qty : ℚ
  uom : String
  unitRate : ℚ
  /-- `Total` column; `none` models an absent or non-numeric cell, which
  `pd.to_numeric(..., errors="coerce").fillna(0.0)` coerces to `0`. -/
  total : Option ℚ
  portLoading : String
  portDelivery : String
  paymentOption : String
  shipmentStatus : String
  proformaInvoice : String
  invoiceNo : String
  blNo : String
  eta : String
  shippingLine : String
  /-- `NextPaymentDue` column as a day ordinal; `none` = unset/blank. -/
  nextPaymentDue : Option ℤ
  paid : ℚ
  due : ℚ
  deriving Repr, DecidableEq

instance : Inhabited Purchase :=
  ⟨{ slNo := 0, date := "", supplier := "", material := "", qty := 0, uom := "",
     unitRate := 0, total := none, portLoading := "", portDelivery := "",
     paymentOption := "", shipmentStatus := "", proformaInvoice := "",
     invoiceNo := "", blNo := "", eta := "", shippingLine := "",
     nextPaymentDue := none, paid := 0, due := 0 }⟩

/-- One row of the purchase-payments table (columns `PAYMENT_COLS`). -/
structure Payment where
  paymentID : ℤ
  purchaseSlNo : ℤ
  date : String
  amount : ℚ
  note : String
  nextPaymentDue : Option ℤ
  deriving Repr, DecidableEq

/-- Sum of the `Amount` column over the payments whose `PurchaseSlNo` equals
`sl`; this is what `payments_df.groupby("PurchaseSlNo")["Amount"].sum()`
followed by `grouped.get(sl, 0.0)` yields for key `sl` (0 when no payment
references `sl`). -/
def paymentsSum (payments : List Payment) (sl : ℤ) : ℚ :=
  ((payments.filter (fun pay => pay.purchaseSlNo = sl)).map Payment.amount).sum

/-- `recalc_balances(purchases_df, payments_df)` (source lines 102–115):
copy the purchases, coerce `Total` to numeric (`0` when absent/non-numeric),
set `Paid = 0.0`, `Due = Total`; if the payments table is empty return that;
otherwise, for every row, `Paid = round(sum of its payment group, 2)` and
`Due = round(max(Total - paid, 0), 2)`. -/
def recalc_balances (purchases : List Purchase) (payments : List Payment) :
    List Purchase :=
  purchases.map (fun p =>
    let t : ℚ := p.total.getD 0
    if payments.isEmpty then
      { p with total := some t, paid := 0, due := t }
    else
      let paid := paymentsSum payments p.slNo
      { p with total := some t,
               paid := round2 paid,
               due := round2 (max (t - paid) 0) })

/-- `next_slno(df)` (source lines 73–76), applied to the `SlNo` column:
1 on an empty table, otherwise the maximum existing number plus 1. -/
def next_slno (slnos : List ℤ) : ℤ :=
  match slnos with
  | [] => 1
  | s :: ss => ss.foldl max s + 1

/-- `next_payment_id(df)` (source lines 78–81), applied to the `PaymentID`
column: 1 on an empty table, otherwise the maximum existing id plus 1. -/
def next_payment_id (ids : List ℤ) : ℤ :=
  match ids with
  | [] => 1
  | s :: ss => ss.foldl max s + 1

/-- The `Payment Option` selectbox of the Add Purchase form: one of
`"10% advance"`, `"20% advance"`, `"30% advance"`, `"100% advance"`. -/
inductive PaymentOption
  | adv10
  | adv20
  | adv30
  | adv100
  deriving Repr, DecidableEq

/-- The percent dictionary of source line 245. -/
def PaymentOption.percent : PaymentOption → ℚ
  | .adv10 => 1 / 10
  | .adv20 => 2 / 10
  | .adv30 => 3 / 10
  | .adv100 => 1

/-- The label stored in the `PaymentOption` column. -/
def PaymentOption.label : PaymentOption → String
  | .adv10 => "10% advance"
  | .adv20 => "20% advance"
  | .adv30 => "30% advance"
  | .adv100 => "100% advance"

/-- The Add Purchase form submission (source lines 229–257): compute
`total = round(qty * unit_rate, 2)`, assign `sl = next_slno(purchases)`,
append the new purchase row with `Paid = 0`, `Due = total`, shipment status
`"Yet to Dispatch"` and blank shipment fields; then, with
`advance_amount = round(total * percent, 2)`, if `advance_amount > 0`
append one payment with id `next_payment_id(payments)`, dated today, amount
`advance_amount` and note `"Initial advance"`.  Returns the updated
purchases, the updated payments, and the assigned sequence number. -/
def add_purchase (purchases : List Purchase) (payments : List Payment)
    (dt : String) (supplier material : String) (qty : ℚ) (uom : String)
    (unit_rate : ℚ) (port_loading port_delivery : String)
    (payment_option : PaymentOption) (today : String) :
    List Purchase × List Payment × ℤ :=
  let total := round2 (qty * unit_rate)
  let sl := next_slno (purchases.map Purchase.slNo)
  let newPurchase : Purchase :=
    { slNo := sl, date := dt, supplier := supplier, material := material,
      qty := qty, uom := uom, unitRate := unit_rate, total := some total,
      portLoading := port_loading, portDelivery := port_delivery,
      paymentOption := payment_option.label,
      shipmentStatus := "Yet to Dispatch", proformaInvoice := "",
      invoiceNo := "", blNo := "", eta := "", shippingLine := "",
      nextPaymentDue := none, paid := 0, due := total }
  let purchases' := purchases ++ [newPurchase]
  let advance_amount := round2 (total * payment_option.percent)
  let payments' :=
    if advance_amount > 0 then
      payments ++
        [{ paymentID := next_payment_id (payments.map Payment.paymentID),
           purchaseSlNo := sl, date := today, amount := advance_amount,
           note := "Initial advance", nextPaymentDue := none }]
    else payments
  (purchases', payments', sl)

/-- The Record Payment form of the Purchase Update page (source lines
326–357).  The page first reconciles the loaded tables; `record` is the
first reconciled row whose `SlNo` equals the selected `sl`.  The form is
shown only when `record.due > 0`; the amount widget enforces
`0 ≤ amount ≤ record.due` (its `min_value`/`max_value` bounds), and the
submit handler additionally rejects `amount ≤ 0` with an error and no save.
On acceptance the payment is appended with a fresh id and amount rounded to
2 decimals, and the selected purchase row's `NextPaymentDue` is overwritten
with `next_due`.  Returns (accepted?, purchases, payments); on rejection
both collections are returned unchanged. -/
def record_payment (purchases : List Purchase) (payments : List Payment)
    (sl : ℤ) (pay_date : String) (amount : ℚ) (note : String)
    (next_due : ℤ) : Bool × List Purchase × List Payment :=
  let reconciled := recalc_balances purchases payments
  match reconciled.find? (fun p => p.slNo = sl) with
  | none => (false, purchases, payments)
  | some record =>
    if record.due > 0 ∧ 0 < amount ∧ amount ≤ record.due then
      let pay : Payment :=
        { paymentID := next_payment_id (payments.map Payment.paymentID),
          purchaseSlNo := sl, date := pay_date, amount := round2 amount,
          note := note, nextPaymentDue := some next_due }
      let purchases' := reconciled.map (fun p =>
        if p.slNo = sl then { p with nextPaymentDue := some next_due } else p)
      (true, purchases', payments ++ [pay])
    else (false, purchases, payments)

/-- The urgency flag of spec §4.1. -/
inductive Urgency
  | Paid
  | Due
  | DueSoon
  | Overdue
  deriving Repr, DecidableEq

/-- Modelled from the spec: `classify_urgency` is specified in §4.1 as part
of the Ledger Reconciler but has no implementation in the repository's
source file.  Per the spec: `Paid` if `due ≤ 0`; else `Due` when no
next-payment-due date is set; else `Overdue` when that date is strictly
before the current date; else `DueSoon` when it is within 7 days
(inclusive) of the current date; else `Due`.  Dates are day ordinals. -/
def classify_urgency (p : Purchase) (today : ℤ) : Urgency :=
  if p.due ≤ 0 then .Paid
  else
    match p.nextPaymentDue with
    | none => .Due
    | some d =>
      if d < today then .Overdue
      else if d ≤ today + 7 then .DueSoon
      else .Due

/-- Modelled from the spec: `delete_payment` is specified in §4.1 ("removes
the entry with the given id (no-op, not an error, if absent)") but has no
implementation in the repository's source file. -/
def delete_payment (payments : List Payment) (payment_id : ℤ) :
    List Payment :=
  payments.filter (fun pay => pay.paymentID ≠ payment_id)

/-- One row of the sales table (columns `SALES_COLS`). -/
structure Sale where
  slNo : ℤ
  date : String
  customer : String
  material : String
  linkedPurchase : ℤ
  qty : ℚ
  uom : String
  unitRate : ℚ
  total : ℚ
  purchaseRate : ℚ
  profitPerUnit : ℚ
  totalProfit : ℚ
  shipmentStatus : String
  invoiceNo : String
  blNo : String
  eta : String
  shippingLine : String
  paid : ℚ
  due : ℚ
  deriving Repr, DecidableEq

/-- The Add Sale form submission (source lines 372–428): the linked
purchase is the first purchases row whose `SlNo` equals the selection
(`none` when the purchases table is empty or the number is absent, in which
case the form cannot be submitted); `purchase_rate` is its `UnitRate`;
`total = round(qty * sale_rate, 2)`,
`profit_per_unit = round(sale_rate - purchase_rate, 2)`,
`total_profit = round(profit_per_unit * qty, 2)`; the new sale row is
appended with `Paid = 0` and `Due = total`. -/
def add_sale (sales : List Sale) (purchases : List Purchase)
    (sale_date customer material : String) (linked_sl : ℤ) (qty : ℚ)
    (uom : String) (sale_rate : ℚ) : Option (List Sale × ℤ) :=
  match purchases.find? (fun p => p.slNo = linked_sl) with
  | none => none
  | some purchase_row =>
    let purchase_rate := purchase_row.unitRate
    let total := round2 (qty * sale_rate)
    let profit_per_unit := round2 (sale_rate - purchase_rate)
    let total_profit := round2 (profit_per_unit * qty)
    let sl := next_slno (sales.map Sale.slNo)
    let newSale : Sale :=
      { slNo := sl, date := sale_date, customer := customer,
        material := material, linkedPurchase := linked_sl, qty := qty,
        uom := uom, unitRate := sale_rate, total := total,
        purchaseRate := purchase_rate, profitPerUnit := profit_per_unit,
        totalProfit := total_profit, shipmentStatus := "Yet to Dispatch",
        invoiceNo := "", blNo := "", eta := "", shippingLine := "",
        paid := 0, due := total }
    some (sales ++ [newSale], sl)

/-! Helper constructors for concrete test rows: a purchase that differs from
the defaults only in its sequence number and `Total` cell, and a bare
payment row. -/

/-- A purchase row with the given `SlNo` and `Total` cell, every other
column blank/zero. -/
def mkPurchase (sl : ℤ) (t : Option ℚ) : Purchase :=
  { slNo := sl, date := "", supplier := "", material := "", qty := 0,
    uom := "", unitRate := 0, total := t, portLoading := "",
    portDelivery := "", paymentOption := "", shipmentStatus := "",
    proformaInvoice := "", invoiceNo := "", blNo := "", eta := "",
    shippingLine := "", nextPaymentDue := none, paid := 0, due := 0 }

/-- A payment row with the given id, purchase reference and amount. -/
def mkPayment (pid sl : ℤ) (a : ℚ) : Payment :=
  { paymentID := pid, purchaseSlNo := sl, date := "", amount := a,
    note := "", nextPaymentDue := none }

/-! Basic facts about 2-decimal rounding. -/

theorem round2_zero : round2 0 = 0 := by simp [round2]

theorem round2_mono {x y : ℚ} (h : x ≤ y) : round2 x ≤ round2 y := by
  have h1 : round (100 * x) ≤ round (100 * y) := by
    rw [round_eq, round_eq]
    exact Int.floor_mono (by linarith)
  have h2 : ((round (100 * x) : ℤ) : ℚ) ≤ ((round (100 * y) : ℤ) : ℚ) := by
    exact_mod_cast h1
  unfold round2
  linarith

theorem round2_nonneg {x : ℚ} (h : 0 ≤ x) : 0 ≤ round2 x := by
  have := round2_mono h
  rwa [round2_zero] at this

/-- A per-group payment sum is nonnegative when every ledger amount is. -/
theorem paymentsSum_nonneg {payments : List Payment} {sl : ℤ}
    (h : ∀ pay ∈ payments, 0 ≤ pay.amount) : 0 ≤ paymentsSum payments sl := by
  unfold paymentsSum
  induction payments with
  | nil => simp
  | cons a l ih =>
    have ha := h a (List.mem_cons_self a l)
    have ih' := ih (fun pay hp => h pay (List.mem_cons_of_mem a hp))
    by_cases hc : a.purchaseSlNo = sl <;> simp [hc, List.sum_cons] <;> linarith

/-- `recalc_balances` as a per-row map, read off at one index. -/
theorem recalc_balances_getElem? (P : List Purchase) (Pay : List Payment)
    (i : ℕ) (p : Purchase) (hp : P[i]? = some p) :
    (recalc_balances P Pay)[i]? = some (
      let t : ℚ := p.total.getD 0
      if Pay.isEmpty then
        { p with total := some t, paid := 0, due := t }
      else
        let paid := paymentsSum Pay p.slNo
        { p with total := some t,
                 paid := round2 paid,
                 due := round2 (max (t - paid) 0) }) := by
  unfold recalc_balances
  rw [List.getElem?_map, hp]
  rfl

/-- C1, counterexample.  Take one purchase with `SlNo = 1` and
`Total = 0.007`, and an empty payments ledger.  The claim demands
`due = round(max(0.007 - 0, 0), 2) = 0.01`, but `recalc_balances`
returns the purchase with `due = 0.007`: on an empty payments table the
code sets `Due = Total` without rounding. -/
theorem C1_counterexample :
    ¬ ((recalc_balances [mkPurchase 1 (some (7 / 1000))] []).map Purchase.due
        = [round2 (max ((7 : ℚ) / 1000 - paymentsSum [] 1) 0)]) := by
  have h1 : (recalc_balances [mkPurchase 1 (some (7 / 1000))] []).map
      Purchase.due = [(7 : ℚ) / 1000] := rfl
  have h2 : round2 (max ((7 : ℚ) / 1000 - paymentsSum [] 1) 0) = 1 / 100 := by
    norm_num [paymentsSum, round2, round_eq]
  rw [h1, h2]
  intro h
  simp only [List.cons.injEq] at h
  norm_num at h

/-- C1, amended: for every purchase row, with `S` the raw (unrounded) sum
of the amounts of the payments referencing its sequence number, `paid` is
always `round(S, 2)` (`0` falls out when no payment references it, and
payments referencing absent purchases are ignored); `due` is
`round(max(total - S, 0), 2)` — the code subtracts the raw sum `S`, not
the rounded `paid` — whenever the payments collection is non-empty, but
equals the coerced total exactly (not rounded) when the payments
collection is empty.  An absent or non-numeric total is treated as `0`. -/
theorem C1_reconcile_formula (P : List Purchase) (Pay : List Payment)
    (i : ℕ) (p : Purchase) (hp : P[i]? = some p) :
    ∃ q : Purchase, (recalc_balances P Pay)[i]? = some q ∧
      q.paid = round2 (paymentsSum Pay p.slNo) ∧
      q.due = (if Pay.isEmpty then p.total.getD 0
               else round2 (max (p.total.getD 0 - paymentsSum Pay p.slNo) 0)) := by
  refine ⟨_, recalc_balances_getElem? P Pay i p hp, ?_, ?_⟩ <;>
    cases Pay with
    | nil => simp [paymentsSum, round2_zero]
    | cons a l => simp [List.isEmpty]

/-- C1, witness: the amended formula evaluated on one purchase
(`total = 50`) and one matching payment of `10`. -/
theorem C1_witness :
    ∃ q : Purchase,
      (recalc_balances [mkPurchase 1 (some 50)] [mkPayment 1 1 10])[0]?
        = some q ∧
      q.paid = round2 (paymentsSum [mkPayment 1 1 10] 1) ∧
      q.due = (if ([mkPayment 1 1 10] : List Payment).isEmpty then
                 (mkPurchase 1 (some 50)).total.getD 0
               else round2 (max ((mkPurchase 1 (some 50)).total.getD 0
                 - paymentsSum [mkPayment 1 1 10] 1) 0)) :=
  C1_reconcile_formula [mkPurchase 1 (some 50)] [mkPayment 1 1 10] 0
    (mkPurchase 1 (some 50)) (by decide)

/-- C2: reconciling an already-reconciled purchase collection with the same
payments is the identity — the output (in particular every `paid`/`due`
pair) does not depend on the `paid`/`due` values the input carried, which
`recalc_balances` overwrites before reading anything. -/
theorem C2_reconcile_idempotent (P : List Purchase) (Pay : List Payment) :
    recalc_balances (recalc_balances P Pay) Pay = recalc_balances P Pay := by
  unfold recalc_balances
  rw [List.map_map]
  refine List.map_congr_left ?_
  intro p _
  by_cases hPay : Pay.isEmpty <;> simp [hPay]

/-- C3, counterexample.  Purchases `1` (total `0.007`) and `2` (total
`100`), and a single positive payment of `10` referencing purchase `2` — a
well-formed input under the stated contract.  For purchase `1` the code
computes `paid = 0` and `due = round(0.007, 2) = 0.01 > 0.007 = total`, so
`due ≤ total` fails: rounding `due` up can push it past a total that is not
itself a 2-decimal value. -/
theorem C3_counterexample :
    ¬ (∀ q ∈ recalc_balances
          [mkPurchase 1 (some (7 / 1000)), mkPurchase 2 (some 100)]
          [mkPayment 1 2 10],
        0 ≤ q.paid ∧ 0 ≤ q.due ∧ q.due ≤ q.total.getD 0) := by
  intro h
  have h0 := recalc_balances_getElem?
      [mkPurchase 1 (some (7 / 1000)), mkPurchase 2 (some 100)]
      [mkPayment 1 2 10] 0 (mkPurchase 1 (some (7 / 1000))) rfl
  have hq := (h _ (List.getElem?_mem h0)).2.2
  norm_num [mkPurchase, mkPayment, paymentsSum, round2, round_eq] at hq

/-- C3, amended: under the stated input contract on payments (every amount
strictly positive) and the additional contract the spec states for
purchases — here strengthened to what the code actually needs: every total
is non-negative and already a 2-decimal value (rounding to 2 decimals fixes
it) — every purchase in the output of `recalc_balances` satisfies
`paid ≥ 0`, `due ≥ 0` and `due ≤ total`. -/
theorem C3_invariants (P : List Purchase) (Pay : List Payment)
    (hpay : ∀ pay ∈ Pay, 0 < pay.amount)
    (htot : ∀ p ∈ P, 0 ≤ p.total.getD 0 ∧
      round2 (p.total.getD 0) = p.total.getD 0) :
    ∀ q ∈ recalc_balances P Pay,
      0 ≤ q.paid ∧ 0 ≤ q.due ∧ q.due ≤ q.total.getD 0 := by
  intro q hq
  unfold recalc_balances at hq
  rw [List.mem_map] at hq
  obtain ⟨p, hpP, rfl⟩ := hq
  obtain ⟨ht0, htr⟩ := htot p hpP
  cases Pay with
  | nil =>
    simp only [List.isEmpty_nil, if_true]
    exact ⟨le_refl 0, ht0, by simp⟩
  | cons a l =>
    have hs0 : 0 ≤ paymentsSum (a :: l) p.slNo :=
      paymentsSum_nonneg (fun pay hp => le_of_lt (hpay pay hp))
    simp only [List.isEmpty_cons, if_neg Bool.false_ne_true]
    refine ⟨round2_nonneg hs0, round2_nonneg (le_max_right _ _), ?_⟩
    have hle : max (p.total.getD 0 - paymentsSum (a :: l) p.slNo) 0
        ≤ p.total.getD 0 := max_le (by linarith) ht0
    simpa using le_trans (round2_mono hle) (le_of_eq htr)

/-- C3, witness: the amended invariant evaluated on one purchase with
total `50` and one payment of `10` against it. -/
theorem C3_witness :
    ∃ q : Purchase,
      (recalc_balances [mkPurchase 1 (some 50)] [mkPayment 1 1 10])[0]?
        = some q ∧
      0 ≤ q.paid ∧ 0 ≤ q.due ∧ q.due ≤ q.total.getD 0 := by
  have h0 := recalc_balances_getElem? [mkPurchase 1 (some 50)]
    [mkPayment 1 1 10] 0 (mkPurchase 1 (some 50)) rfl
  exact ⟨_, h0,
    C3_invariants [mkPurchase 1 (some 50)] [mkPayment 1 1 10]
      (by norm_num [mkPayment])
      (by norm_num [mkPurchase, round2, round_eq])
      _ (List.getElem?_mem h0)⟩

/-- C4: a payment submission whose amount is not strictly positive, or
strictly greater than the selected purchase's current due as computed by
the reconciliation the page performs, is rejected and returns both
collections unchanged.  (In the source the `amount ≤ due` bound is the
`max_value` of the amount widget and `amount > 0` is the explicit check of
the submit handler; either way nothing is saved.) -/
theorem C4_reject_leaves_state (purchases : List Purchase)
    (payments : List Payment) (sl : ℤ) (pay_date : String) (amount : ℚ)
    (note : String) (next_due : ℤ) (record : Purchase)
    (hrec : (recalc_balances purchases payments).find?
      (fun p => p.slNo = sl) = some record)
    (hbad : amount ≤ 0 ∨ record.due < amount) :
    record_payment purchases payments sl pay_date amount note next_due
      = (false, purchases, payments) := by
  simp only [record_payment, hrec]
  rw [if_neg]
  rintro ⟨h1, h2, h3⟩
  rcases hbad with hb | hb
  · linarith
  · linarith

/-- C4, witness: a purchase with `total = 1000` and no payments
(`paid = 0`, `due = 1000`); attempting a payment of `1200` is rejected,
both collections come back unchanged, and `due` is still `1000`. -/
theorem C4_witness :
    record_payment [mkPurchase 1 (some 1000)] [] 1 "d" 1200 "" 0
        = (false, [mkPurchase 1 (some 1000)], [])
      ∧ (recalc_balances [mkPurchase 1 (some 1000)] []).map Purchase.due
        = [1000] :=
  ⟨C4_reject_leaves_state [mkPurchase 1 (some 1000)] [] 1 "d" 1200 "" 0
      ({ mkPurchase 1 (some 1000) with
           total := some 1000
           paid := 0
           due := 1000 })
      (by decide) (Or.inr (by norm_num)),
    by decide⟩

/-! Facts about the left fold with `max` that `next_slno` and
`next_payment_id` perform over the existing number column. -/

theorem foldl_max_ge_init (ss : List ℤ) (s : ℤ) : s ≤ ss.foldl max s := by
  induction ss generalizing s with
  | nil => simp
  | cons a l ih => exact le_trans (le_max_left s a) (ih (max s a))

theorem foldl_max_ge_mem (ss : List ℤ) (s : ℤ) :
    ∀ x ∈ ss, x ≤ ss.foldl max s := by
  induction ss generalizing s with
  | nil => simp
  | cons a l ih =>
    intro x hx
    rcases List.mem_cons.mp hx with rfl | hx
    · exact le_trans (le_max_right s x) (foldl_max_ge_init l (max s x))
    · exact ih (max s a) x hx

theorem foldl_max_mem (ss : List ℤ) (s : ℤ) : ss.foldl max s ∈ s :: ss := by
  induction ss generalizing s with
  | nil => simp
  | cons a l ih =>
    have h := ih (max s a)
    rcases List.mem_cons.mp h with h1 | h1
    · rcases max_choice s a with h2 | h2 <;>
        rw [List.foldl_cons, h1, h2] <;> simp
    · simp only [List.foldl_cons]
      exact List.mem_cons_of_mem s (List.mem_cons_of_mem a h1)

/-- C5: the Add Purchase submission assigns the new purchase the sequence
number `1` on an empty collection and `max existing + 1` otherwise; the new
number is strictly greater than every existing one (so no number a
purchase ever held — the code has no purchase deletion — is reused); the
new record is appended with `total = round(qty * unit_rate, 2)`, `paid = 0`
and `due = total`. -/
theorem C5_record_purchase (purchases : List Purchase)
    (payments : List Payment) (dt supplier material : String) (qty : ℚ)
    (uom : String) (unit_rate : ℚ) (pl pd : String) (o : PaymentOption)
    (today : String) :
    (∀ p ∈ purchases, p.slNo <
      (add_purchase purchases payments dt supplier material qty uom
        unit_rate pl pd o today).2.2) ∧
    (purchases = [] →
      (add_purchase purchases payments dt supplier material qty uom
        unit_rate pl pd o today).2.2 = 1) ∧
    (∀ p0 ps, purchases = p0 :: ps →
      ∃ m, m ∈ purchases.map Purchase.slNo ∧
        (∀ s ∈ purchases.map Purchase.slNo, s ≤ m) ∧
        (add_purchase purchases payments dt supplier material qty uom
          unit_rate pl pd o today).2.2 = m + 1) ∧
    (∃ pnew,
      (add_purchase purchases payments dt supplier material qty uom
        unit_rate pl pd o today).1 = purchases ++ [pnew] ∧
      pnew.slNo = (add_purchase purchases payments dt supplier material qty
        uom unit_rate pl pd o today).2.2 ∧
      pnew.total = some (round2 (qty * unit_rate)) ∧
      pnew.paid = 0 ∧
      pnew.due = round2 (qty * unit_rate)) := by
  refine ⟨?_, ?_, ?_, ?_⟩
  · intro p hp
    cases purchases with
    | nil => cases hp
    | cons p0 ps =>
      have hmem : p.slNo ∈ p0.slNo :: ps.map Purchase.slNo := by
        rw [← List.map_cons]
        exact List.mem_map_of_mem Purchase.slNo hp
      show p.slNo < (ps.map Purchase.slNo).foldl max p0.slNo + 1
      rcases List.mem_cons.mp hmem with h1 | h1
      · have h2 := foldl_max_ge_init (ps.map Purchase.slNo) p0.slNo
        omega
      · have h2 := foldl_max_ge_mem (ps.map Purchase.slNo) p0.slNo p.slNo h1
        omega
  · intro h
    subst h
    rfl
  · intro p0 ps h
    subst h
    refine ⟨(ps.map Purchase.slNo).foldl max p0.slNo, ?_, ?_, rfl⟩
    · rw [List.map_cons]
      exact foldl_max_mem (ps.map Purchase.slNo) p0.slNo
    · intro s hs
      rw [List.map_cons] at hs
      rcases List.mem_cons.mp hs with h1 | h1
      · exact h1 ▸ foldl_max_ge_init (ps.map Purchase.slNo) p0.slNo
      · exact foldl_max_ge_mem (ps.map Purchase.slNo) p0.slNo s h1
  · exact ⟨_, rfl, rfl, rfl, rfl, rfl⟩

/-- C5, witness: on purchases numbered `3` and `1`, the new purchase gets
sequence number `4 = 3 + 1`, strictly above every existing number, and
carries `total = round(10 * 5, 2) = 50`, `paid = 0`, `due = 50`. -/
theorem C5_witness :
    (∀ p ∈ [mkPurchase 3 (some 5), mkPurchase 1 (some 2)], p.slNo <
      (add_purchase [mkPurchase 3 (some 5), mkPurchase 1 (some 2)] [] "d"
        "s" "m" 10 "Kg" 5 "" "" .adv10 "t").2.2) ∧
    (∃ m, m ∈ [mkPurchase 3 (some 5), mkPurchase 1 (some 2)].map
        Purchase.slNo ∧
      (∀ s ∈ [mkPurchase 3 (some 5), mkPurchase 1 (some 2)].map
        Purchase.slNo, s ≤ m) ∧
      (add_purchase [mkPurchase 3 (some 5), mkPurchase 1 (some 2)] [] "d"
        "s" "m" 10 "Kg" 5 "" "" .adv10 "t").2.2 = m + 1) ∧
    (∃ pnew,
      (add_purchase [mkPurchase 3 (some 5), mkPurchase 1 (some 2)] [] "d"
        "s" "m" 10 "Kg" 5 "" "" .adv10 "t").1
        = [mkPurchase 3 (some 5), mkPurchase 1 (some 2)] ++ [pnew] ∧
      pnew.slNo = (add_purchase [mkPurchase 3 (some 5),
        mkPurchase 1 (some 2)] [] "d" "s" "m" 10 "Kg" 5 "" "" .adv10
        "t").2.2 ∧
      pnew.total = some (round2 (10 * 5)) ∧
      pnew.paid = 0 ∧
      pnew.due = round2 (10 * 5)) :=
  ⟨(C5_record_purchase [mkPurchase 3 (some 5), mkPurchase 1 (some 2)] []
      "d" "s" "m" 10 "Kg" 5 "" "" .adv10 "t").1,
    (C5_record_purchase [mkPurchase 3 (some 5), mkPurchase 1 (some 2)] []
      "d" "s" "m" 10 "Kg" 5 "" "" .adv10 "t").2.2.1
      (mkPurchase 3 (some 5)) [mkPurchase 1 (some 2)] rfl,
    (C5_record_purchase [mkPurchase 3 (some 5), mkPurchase 1 (some 2)] []
      "d" "s" "m" 10 "Kg" 5 "" "" .adv10 "t").2.2.2⟩

/-- C6: creating a purchase synthesizes exactly one payment with note
"Initial advance" and amount `round(total * advance_percent, 2)` whenever
that amount is positive, and no payment when it is `0`; and in the concrete
scenario — quantity `10` at rate `5` with the `20%` option — the total is
`50`, the automatic payment is `10`, and reconciling the resulting
collections yields `paid = 10`, `due = 40`. -/
theorem C6_initial_advance (purchases : List Purchase)
    (payments : List Payment) (dt supplier material : String) (qty : ℚ)
    (uom : String) (unit_rate : ℚ) (pl pd : String) (o : PaymentOption)
    (today : String) :
    ((add_purchase purchases payments dt supplier material qty uom
        unit_rate pl pd o today).2.1
      = (if 0 < round2 (round2 (qty * unit_rate) * o.percent)
         then payments ++
           [{ paymentID := next_payment_id (payments.map Payment.paymentID),
              purchaseSlNo := next_slno (purchases.map Purchase.slNo),
              date := today,
              amount := round2 (round2 (qty * unit_rate) * o.percent),
              note := "Initial advance", nextPaymentDue := none }]
         else payments)) ∧
    ((add_purchase [] [] "d" "s" "m" 10 "Kg" 5 "" "" .adv20 "t").1.map
        (fun p => p.total) = [some 50]) ∧
    ((add_purchase [] [] "d" "s" "m" 10 "Kg" 5 "" "" .adv20 "t").2.1.map
        (fun pay => (pay.amount, pay.note))
      = [(10, "Initial advance")]) ∧
    ((recalc_balances
        (add_purchase [] [] "d" "s" "m" 10 "Kg" 5 "" "" .adv20 "t").1
        (add_purchase [] [] "d" "s" "m" 10 "Kg" 5 "" "" .adv20 "t").2.1).map
      (fun p => (p.paid, p.due)) = [(10, 40)]) := by
  refine ⟨rfl, ?_, ?_, ?_⟩ <;>
    norm_num [add_purchase, recalc_balances, paymentsSum, next_slno,
      next_payment_id, PaymentOption.percent, round2, round_eq,
      List.isEmpty]

/-- C7: `classify_urgency` is a pure function of one purchase and the
current date; it returns `Paid` whenever `due ≤ 0` regardless of dates;
otherwise `Due` when no next-payment-due date is set; otherwise `Overdue`
when that date is strictly before today; otherwise `DueSoon` when it is at
most 7 days (inclusive) after today; otherwise `Due`. -/
theorem C7_classify_urgency (p : Purchase) (today : ℤ) :
    (p.due ≤ 0 → classify_urgency p today = .Paid) ∧
    (0 < p.due → p.nextPaymentDue = none →
      classify_urgency p today = .Due) ∧
    (∀ d, 0 < p.due → p.nextPaymentDue = some d → d < today →
      classify_urgency p today = .Overdue) ∧
    (∀ d, 0 < p.due → p.nextPaymentDue = some d → today ≤ d →
      d ≤ today + 7 → classify_urgency p today = .DueSoon) ∧
    (∀ d, 0 < p.due → p.nextPaymentDue = some d → today + 7 < d →
      classify_urgency p today = .Due) := by
  refine ⟨?_, ?_, ?_, ?_, ?_⟩
  · intro h
    simp [classify_urgency, h]
  · intro h hn
    simp [classify_urgency, hn, not_le.mpr h]
  · intro d h hn hd
    simp [classify_urgency, hn, not_le.mpr h, hd]
  · intro d h hn h1 h2
    simp [classify_urgency, hn, not_le.mpr h, not_lt.mpr h1, h2]
  · intro d h hn h1
    have h2 : today ≤ d := by linarith
    simp [classify_urgency, hn, not_le.mpr h, not_lt.mpr h2,
      not_le.mpr h1]

/-- C7, witness: with `due = 5` and today `= 0`, a next-due date exactly 7
days out classifies `DueSoon`, 8 days out classifies `Due`, yesterday
classifies `Overdue`; and with `due = 0` the result is `Paid` regardless of
the date. -/
theorem C7_witness :
    classify_urgency
      ({ mkPurchase 1 none with due := 5, nextPaymentDue := some 7 }) 0
      = .DueSoon ∧
    classify_urgency
      ({ mkPurchase 1 none with due := 5, nextPaymentDue := some 8 }) 0
      = .Due ∧
    classify_urgency
      ({ mkPurchase 1 none with due := 5, nextPaymentDue := some (-1) }) 0
      = .Overdue ∧
    classify_urgency
      ({ mkPurchase 1 none with due := 0, nextPaymentDue := some (-1) }) 0
      = .Paid :=
  ⟨(C7_classify_urgency
      ({ mkPurchase 1 none with due := 5, nextPaymentDue := some 7 })
      0).2.2.2.1 7 (by norm_num [mkPurchase]) rfl (by norm_num)
      (by norm_num),
    (C7_classify_urgency
      ({ mkPurchase 1 none with due := 5, nextPaymentDue := some 8 })
      0).2.2.2.2 8 (by norm_num [mkPurchase]) rfl (by norm_num),
    (C7_classify_urgency
      ({ mkPurchase 1 none with due := 5, nextPaymentDue := some (-1) })
      0).2.2.1 (-1) (by norm_num [mkPurchase]) rfl (by norm_num),
    (C7_classify_urgency
      ({ mkPurchase 1 none with due := 0, nextPaymentDue := some (-1) })
      0).1 (by norm_num [mkPurchase])⟩

/-- C8, counterexample.  A purchase whose `Total` cell is absent (or
non-numeric) and an empty payments collection: `recalc_balances` stores the
coerced value `0` back into the `Total` column, so a field other than
`paid`/`due` is overwritten, contradicting the claim that every other
field is preserved. -/
theorem C8_counterexample :
    ¬ ((recalc_balances [mkPurchase 1 none] []).map Purchase.total
        = [mkPurchase 1 none].map Purchase.total) := by
  decide

/-- C8, amended: `recalc_balances` is a pure function returning a copy of
the purchase collection of the same length in which, position by position,
only `paid`, `due` and `total` are overwritten — `total` being replaced by
its numeric coercion (`0` when the cell is absent or non-numeric) — and
every other field of every purchase is preserved in order; the payments
argument is only read. -/
theorem C8_frame (P : List Purchase) (Pay : List Payment) (i : ℕ)
    (p : Purchase) (hp : P[i]? = some p) :
    (recalc_balances P Pay).length = P.length ∧
    ∃ q : Purchase, (recalc_balances P Pay)[i]? = some q ∧
      q.slNo = p.slNo ∧ q.date = p.date ∧ q.supplier = p.supplier ∧
      q.material = p.material ∧ q.qty = p.qty ∧ q.uom = p.uom ∧
      q.unitRate = p.unitRate ∧ q.portLoading = p.portLoading ∧
      q.portDelivery = p.portDelivery ∧
      q.paymentOption = p.paymentOption ∧
      q.shipmentStatus = p.shipmentStatus ∧
      q.proformaInvoice = p.proformaInvoice ∧
      q.invoiceNo = p.invoiceNo ∧ q.blNo = p.blNo ∧ q.eta = p.eta ∧
      q.shippingLine = p.shippingLine ∧
      q.nextPaymentDue = p.nextPaymentDue ∧
      q.total = some (p.total.getD 0) := by
  refine ⟨by simp [recalc_balances], ⟨_,
    recalc_balances_getElem? P Pay i p hp, ?_⟩⟩
  cases Pay with
  | nil => simp
  | cons a l => simp [List.isEmpty]

/-- C8, witness: the frame property evaluated at the purchase row with an
absent total and one unrelated payment. -/
theorem C8_witness :
    (recalc_balances [mkPurchase 1 none] [mkPayment 1 2 10]).length
        = [mkPurchase 1 none].length ∧
    ∃ q : Purchase,
      (recalc_balances [mkPurchase 1 none] [mkPayment 1 2 10])[0]?
        = some q ∧
      q.slNo = (mkPurchase 1 none).slNo ∧
      q.date = (mkPurchase 1 none).date ∧
      q.supplier = (mkPurchase 1 none).supplier ∧
      q.material = (mkPurchase 1 none).material ∧
      q.qty = (mkPurchase 1 none).qty ∧
      q.uom = (mkPurchase 1 none).uom ∧
      q.unitRate = (mkPurchase 1 none).unitRate ∧
      q.portLoading = (mkPurchase 1 none).portLoading ∧
      q.portDelivery = (mkPurchase 1 none).portDelivery ∧
      q.paymentOption = (mkPurchase 1 none).paymentOption ∧
      q.shipmentStatus = (mkPurchase 1 none).shipmentStatus ∧
      q.proformaInvoice = (mkPurchase 1 none).proformaInvoice ∧
      q.invoiceNo = (mkPurchase 1 none).invoiceNo ∧
      q.blNo = (mkPurchase 1 none).blNo ∧
      q.eta = (mkPurchase 1 none).eta ∧
      q.shippingLine = (mkPurchase 1 none).shippingLine ∧
      q.nextPaymentDue = (mkPurchase 1 none).nextPaymentDue ∧
      q.total = some ((mkPurchase 1 none).total.getD 0) :=
  C8_frame [mkPurchase 1 none] [mkPayment 1 2 10] 0 (mkPurchase 1 none)
    rfl

/-- C9: deleting a payment id that is absent from the ledger is a no-op —
the payments collection is returned unchanged, and reconciling any
purchase collection against it yields exactly the balances it yielded
before.  (`delete_payment` is modelled from spec §4.1; the repository's
source has no payment-deletion code.) -/
theorem C9_delete_absent (purchases : List Purchase)
    (payments : List Payment) (pid : ℤ)
    (h : ∀ pay ∈ payments, pay.paymentID ≠ pid) :
    delete_payment payments pid = payments ∧
    recalc_balances purchases (delete_payment payments pid)
      = recalc_balances purchases payments := by
  have h1 : delete_payment payments pid = payments := by
    unfold delete_payment
    rw [List.filter_eq_self]
    intro a ha
    simpa using h a ha
  exact ⟨h1, by rw [h1]⟩

/-- C9, witness: deleting id `99` from a ledger holding only id `1` leaves
the ledger and the reconciled balances unchanged. -/
theorem C9_witness :
    delete_payment [mkPayment 1 1 10] 99 = [mkPayment 1 1 10] ∧
    recalc_balances [mkPurchase 1 (some 50)]
        (delete_payment [mkPayment 1 1 10] 99)
      = recalc_balances [mkPurchase 1 (some 50)] [mkPayment 1 1 10] :=
  C9_delete_absent [mkPurchase 1 (some 50)] [mkPayment 1 1 10] 99
    (by decide)

/-- C10: a sale created against a linked purchase carries
`purchase_rate` = the linked purchase's unit rate,
`profit_per_unit = round(sale_rate - purchase_rate, 2)` and
`total_profit = round(profit_per_unit * qty, 2)`, appended as the new last
row. -/
theorem C10_sale_profit (sales : List Sale) (purchases : List Purchase)
    (sale_date customer material : String) (linked_sl : ℤ) (qty : ℚ)
    (uom : String) (sale_rate : ℚ) (row : Purchase)
    (hrow : purchases.find? (fun p => p.slNo = linked_sl) = some row) :
    ∃ s : Sale,
      add_sale sales purchases sale_date customer material linked_sl qty
          uom sale_rate
        = some (sales ++ [s], next_slno (sales.map Sale.slNo)) ∧
      s.purchaseRate = row.unitRate ∧
      s.profitPerUnit = round2 (sale_rate - row.unitRate) ∧
      s.totalProfit = round2 (s.profitPerUnit * qty) := by
  unfold add_sale
  rw [hrow]
  exact ⟨_, rfl, rfl, rfl, rfl⟩

/-- C10, witness: a sale of 10 units at rate 7 against a purchase bought
at unit rate 5. -/
theorem C10_witness :
    ∃ s : Sale,
      add_sale [] [{ mkPurchase 1 (some 50) with unitRate := 5 }] "d" "c"
          "m" 1 10 "Kg" 7
        = some ([] ++ [s], next_slno (([] : List Sale).map Sale.slNo)) ∧
      s.purchaseRate
        = ({ mkPurchase 1 (some 50) with unitRate := 5 }).unitRate ∧
      s.profitPerUnit = round2
        (7 - ({ mkPurchase 1 (some 50) with unitRate := 5 }).unitRate) ∧
      s.totalProfit = round2 (s.profitPerUnit * 10) :=
  C10_sale_profit [] [{ mkPurchase 1 (some 50) with unitRate := 5 }] "d"
    "c" "m" 1 10 "Kg" 7
    ({ mkPurchase 1 (some 50) with unitRate := 5 }) rfl

end ImportExport
